import Mathlib

/-!
Verification development for the OVERWATCH ZMQ receivers.

The repository holds two small C++ programs:

* `src/src/zmqReceiver.cxx` — a merging receiver.  It subscribes to a stream
  of histograms, infers the name that marks the boundary of each repeating
  round of histograms from arrival-time statistics ("group boundary
  inference"), accumulates the histograms in two maps (`fMergeObjectMap`,
  `fMergeListMap`), and merges/flushes them to a file when the inference
  engine decides a batch is complete, or at run boundaries (SOR/EOR frames).

* `src/receiver/src/zmqReceiver.cxx` — a simpler request/reply receiver.  It
  periodically sends a request, polls for the reply, decodes the multi-part
  message (INFO frame, streamer-info frame, data objects) and writes the
  objects of each reply to a file unless the run number is 0.

Both are embedded shallowly below.  C++ `double` time values are represented
exactly in tenths of a second as `Int`: the only non-integer value the source
ever stores in those fields is the constant `0.1`, all other values are
differences of integer `time(0)` results, so scaling by 10 is exact
(`0.1 s ↦ 1`, `1 s ↦ 10`, a timestamp of `k` seconds ↦ `10 * k`).
Histogram bin contents are modelled as integers (exact for the integer-valued
examples of the specification; ROOT stores doubles).
-/

namespace ZMQMerger

/-- Histogram bin contents of a `TH1`, modelled as a list of integer bin
values (exact for integer-valued bins). -/
abbrev Hist := List Int

/-- Durations and timestamps, in tenths of a second (exact encoding of the
`Double_t` time fields of the source; see the file header). -/
abbrev Tenths := Int

/-- `kUnknownRunNumber` from `src/src/zmqReceiver.h` line 34. -/
def kUnknownRunNumber : Int := 12345678

/-- Lookup in a `TMap` keyed by object name (`TMap::GetValue`); `none` models
the `NULL` return when the key is absent. -/
def mapLookup {α : Type} : List (String × α) → String → Option α
  | [], _ => none
  | (k, v) :: rest, key => if k = key then some v else mapLookup rest key

/-- Replace the value stored under `key` (in-place mutation of the mapped
`TObject` in the source); keys not present are left alone. -/
def mapUpdate {α : Type} : List (String × α) → String → α → List (String × α)
  | [], _, _ => []
  | (k, v) :: rest, key, newV =>
    if k = key then (k, newV) :: rest else (k, v) :: mapUpdate rest key newV

/-- Whether `needle` is a prefix of `haystack` (character lists). -/
def isPrefixAt : List Char → List Char → Bool
  | [], _ => true
  | _ :: _, [] => false
  | a :: as, b :: bs => a == b && isPrefixAt as bs

/-- Whether `needle` occurs as a contiguous substring of `haystack`
(character lists). -/
def containsSubChars : List Char → List Char → Bool
  | needle, [] => needle.isEmpty
  | needle, c :: rest => isPrefixAt needle (c :: rest) || containsSubChars needle rest

/-- `strstr(haystack, needle) != NULL` — the substring test used on the
object name in `processReceivedHistogram` (line 228). -/
def strstrContains (haystack needle : String) : Bool :=
  containsSubChars needle.toList haystack.toList

/-- The mutable fields of `zmqReceiver` (`src/src/zmqReceiver.h` lines 57-81)
that the embedded operations read or write. -/
structure MergeState where
  fVerbose : Int
  fHistogramGroupCounter : Int
  fPreviousObjectTime : Tenths
  fMaxTimeBetweenObjects : Tenths
  fMaxWaitTime : Tenths
  fRunNumber : Int
  fHistIdentifier : String
  fPreviousObjectName : String
  fMergeAfterObjectName : String
  fLockInMergeName : Bool
  fJustWroteFile : Bool
  fMaxObjects : Int
  fMergeObjectMap : List (String × Hist)
  fMergeListMap : List (String × List Hist)
deriving DecidableEq

/-- The constructor `zmqReceiver::zmqReceiver()` (lines 33-55); `t0` stands
for the `time(0)` result stored into `fPreviousObjectTime`.  Time constants
are in tenths of a second: `fMaxTimeBetweenObjects = 0.1 s ↦ 1`,
`fMaxWaitTime = 1 s ↦ 10`. -/
def initialState (t0 : Tenths) : MergeState where
  fVerbose := 1
  fHistogramGroupCounter := 0
  fPreviousObjectTime := t0
  fMaxTimeBetweenObjects := 1
  fMaxWaitTime := 10
  fRunNumber := kUnknownRunNumber
  fHistIdentifier := "EMCTRQA"
  fPreviousObjectName := ""
  fMergeAfterObjectName := ""
  fLockInMergeName := false
  fJustWroteFile := false
  fMaxObjects := 10
  fMergeObjectMap := []
  fMergeListMap := []

/-- Modelled from the spec: ROOT's `TH1::Add` (called at line 121), an
external library routine not part of this repository.  Same-shape histograms
are summed bin for bin; a shape-mismatched addend is rejected with a warning
and leaves the target histogram unchanged. -/
def histAdd (mergeInto obj : Hist) : Hist :=
  if obj.length = mergeInto.length then
    List.zipWith (fun a b => a + b) mergeInto obj
  else
    mergeInto

/-- `zmqReceiver::mergeHists` (lines 107-132): fold every entry of the
merging list into `mergeInto` with `TH1::Add`.  The source also clears the
list; in this embedding the clearing is performed by the caller
(`mergeAllHists`), which rebuilds the list map. -/
def mergeHists (mergeInto : Hist) (mergingList : List Hist) : Hist :=
  mergingList.foldl histAdd mergeInto

/-- `zmqReceiver::mergeAllHists` (lines 134-159): iterate over the names of
`fMergeObjectMap`; for each name that has a merging list, fold the list into
the stored histogram and clear the list (names without a list are skipped,
line 152). -/
def mergeAllHists (s : MergeState) : MergeState :=
  { s with
    fMergeObjectMap := s.fMergeObjectMap.map (fun e =>
      match mapLookup s.fMergeListMap e.1 with
      | some l => (e.1, mergeHists e.2 l)
      | none => e),
    fMergeListMap := s.fMergeListMap.map (fun e =>
      match mapLookup s.fMergeObjectMap e.1 with
      | some _ => (e.1, ([] : List Hist))
      | none => e) }

/-- `zmqReceiver::writeFile` (lines 162-216): merge everything, write the
merged histograms out (external file I/O, not part of the state), then reset:
`ResetOutputData()` empties `fMergeObjectMap` (line 512) and the inference
fields return to their initial values with `fJustWroteFile` set. -/
def writeFile (s : MergeState) : MergeState :=
  let s1 := mergeAllHists s
  { s1 with
    fMergeObjectMap := []
    fLockInMergeName := false
    fHistogramGroupCounter := 0
    fMaxTimeBetweenObjects := 1
    fPreviousObjectName := ""
    fMergeAfterObjectName := ""
    fJustWroteFile := true }

/-- Events produced by one call of `processReceivedHistogram`:
`sizeMerge` records the size-valve invocation of `mergeAllHists` at line 267,
`wrote` records the invocation of `writeFile` at line 351. -/
structure StepEvents where
  sizeMerge : Bool
  wrote : Bool
deriving DecidableEq

/-- Lines 230-236 of `processReceivedHistogram`: if a file was just written,
restart the timer at the current time and clear the flag. -/
def handleJustWrote (s : MergeState) (t : Tenths) : MergeState :=
  if s.fJustWroteFile = true then
    { s with fPreviousObjectTime := t, fJustWroteFile := false }
  else s

/-- Lines 238-269 of `processReceivedHistogram`: store the received object.
First sighting of a name stores it in `fMergeObjectMap`; the second sighting
creates the merging list; later sightings append to the list, and when the
list has reached `fMaxObjects` entries while the merge name is locked in and
the arriving name equals it, `mergeAllHists` runs (the returned flag). -/
def addToMaps (s : MergeState) (name : String) (object : Hist) :
    MergeState × Bool :=
  match mapLookup s.fMergeObjectMap name, mapLookup s.fMergeListMap name with
  | none, _ =>
    ({ s with fMergeObjectMap := s.fMergeObjectMap ++ [(name, object)] }, false)
  | some _, none =>
    ({ s with fMergeListMap := s.fMergeListMap ++ [(name, [object])] }, false)
  | some _, some l =>
    let l' := l ++ [object]
    let s' := { s with fMergeListMap := mapUpdate s.fMergeListMap name l' }
    if s'.fMaxObjects ≤ (l'.length : Int) ∧ s'.fLockInMergeName = true ∧
        s'.fMergeAfterObjectName = name then
      (mergeAllHists s', true)
    else
      (s', false)

/-- Lines 285-298 of `processReceivedHistogram`: each arrival of the current
merge-after name while the group counter is positive increments the counter;
past 5 the name is locked in even without gap evidence. -/
def confirmCandidate (s : MergeState) (name : String) : MergeState :=
  if s.fMergeAfterObjectName = name ∧ 0 < s.fHistogramGroupCounter then
    let s' := { s with fHistogramGroupCounter := s.fHistogramGroupCounter + 1 }
    if 5 < s'.fHistogramGroupCounter ∧ s'.fLockInMergeName = false then
      { s' with fLockInMergeName := true }
    else s'
  else s

/-- Lines 300-339 of `processReceivedHistogram`: when the gap since the
previous object reaches `fMaxTimeBetweenObjects` and the name is not locked
in, possibly lock in the merge-after name (when it repeats), adapt the
threshold to the observed gap, move the merge-after name to the previous
object's name, and count the group when the gap exceeds `fMaxWaitTime`. -/
def gapUpdate (s : MergeState) (t : Tenths) : MergeState :=
  if s.fMaxTimeBetweenObjects ≤ t - s.fPreviousObjectTime ∧
      s.fLockInMergeName = false then
    let s1 :=
      if s.fMergeAfterObjectName ≠ s.fPreviousObjectName ∧
          s.fMergeAfterObjectName ≠ "" then
        s
      else if s.fMergeAfterObjectName = s.fPreviousObjectName ∧
          s.fMergeAfterObjectName ≠ "" then
        { s with fLockInMergeName := true }
      else s
    let s2 := { s1 with
      fMaxTimeBetweenObjects := t - s1.fPreviousObjectTime,
      fMergeAfterObjectName := s1.fPreviousObjectName }
    if s2.fMaxWaitTime < s2.fMaxTimeBetweenObjects ∧
        s2.fLockInMergeName = false then
      { s2 with fHistogramGroupCounter := s2.fHistogramGroupCounter + 1 }
    else s2
  else s

/-- `zmqReceiver::processReceivedHistogram` (lines 219-359) for a non-NULL
object of name `name` arriving at time `t` (the several `time(0)` calls of
one invocation are the same clock reading).  Names not containing
`fHistIdentifier` are ignored (line 228).  The final condition (line 349)
triggers the merge-and-flush `writeFile`. -/
def processReceivedHistogram (s : MergeState) (name : String) (t : Tenths)
    (object : Hist) : MergeState × StepEvents :=
  if strstrContains name s.fHistIdentifier = true then
    let s1 := handleJustWrote s t
    let r2 := addToMaps s1 name object
    let s3 := confirmCandidate r2.1 name
    let s4 := gapUpdate s3 t
    let s5 := { s4 with fPreviousObjectName := name, fPreviousObjectTime := t }
    if 12 ≤ s5.fHistogramGroupCounter ∧ s5.fLockInMergeName = true ∧
        s5.fMergeAfterObjectName = name then
      (writeFile s5, ⟨r2.2, true⟩)
    else
      (s5, ⟨r2.2, false⟩)
  else
    (s, ⟨false, false⟩)

/-- `zmqReceiver::resetAllData` (lines 516-528): iterate over the names of
`fMergeObjectMap` and call `Clear()` on the merging list of each — without
the `NULL` check that `mergeAllHists` performs.  A name present in the object
map but absent from the list map (a name seen exactly once) makes
`fMergeListMap.GetValue` return `NULL` and `mergingList->Clear()` dereference
a null pointer; `none` models that crash.  Otherwise the lists are cleared and
`ResetOutputData()` empties the object map. -/
def clearListsOf : List (String × Hist) → List (String × List Hist) →
    Option (List (String × List Hist))
  | [], listMap => some listMap
  | (name, _) :: rest, listMap =>
    match mapLookup listMap name with
    | none => none
    | some _ => clearListsOf rest (mapUpdate listMap name [])

/-- See `clearListsOf`. -/
def resetAllData (s : MergeState) : Option MergeState :=
  match clearListsOf s.fMergeObjectMap s.fMergeListMap with
  | none => none
  | some lm => some { s with fMergeListMap := lm, fMergeObjectMap := [] }

/-- The StartOfRun branch of `zmqReceiver::HandleDataIn` (lines 376-393):
store the run number; when the object map is non-empty (a missed EOR) warn
and discard via `resetAllData`; finally restart the timer.  `none` propagates
the `resetAllData` crash. -/
def handleSOR (s : MergeState) (runNo : Int) (t : Tenths) :
    Option MergeState :=
  let s1 := { s with fRunNumber := runNo }
  let s2? := if s1.fMergeObjectMap ≠ [] then resetAllData s1 else some s1
  s2?.map (fun s2 => { s2 with fPreviousObjectTime := t })

/-- One data-object arrival: name, arrival time (tenths of a second) and
deserialized payload. -/
structure Arrival where
  name : String
  t : Tenths
  object : Hist

/-- Accumulated outcome of feeding a list of arrivals to
`processReceivedHistogram`: final state, number of size-valve merges, number
of `writeFile` flushes. -/
structure RunTotals where
  state : MergeState
  sizeMerges : Nat
  writes : Nat
deriving DecidableEq

/-- Feed a list of arrivals through `processReceivedHistogram`, counting the
emitted events. -/
def runArrivals (s : MergeState) (arrivals : List Arrival) : RunTotals :=
  arrivals.foldl
    (fun acc a =>
      let r := processReceivedHistogram acc.state a.name a.t a.object
      { state := r.1,
        sizeMerges := acc.sizeMerges + (if r.2.sizeMerge then 1 else 0),
        writes := acc.writes + (if r.2.wrote then 1 else 0) })
    { state := s, sizeMerges := 0, writes := 0 }

/-- The names of one synthetic round (all contain the default
`fHistIdentifier` `"EMCTRQA"`). -/
def roundNames : List String := ["EMCTRQA_A", "EMCTRQA_B", "EMCTRQA_C"]

/-- Round `r` of the synthetic stream: the three names arrive within the same
second, rounds are 3 seconds (30 tenths) apart — an inter-round gap well above
the intra-round gap and above `fMaxWaitTime`. -/
def syntheticRound (r : Nat) : List Arrival :=
  roundNames.map (fun n => { name := n, t := 30 * (r : Int), object := [1] })

/-- Twelve full rounds of the synthetic stream. -/
def syntheticStream : List Arrival :=
  ((List.range 12).map syntheticRound).flatten

/-- The first three rounds of the synthetic stream (after which the merge
name is locked in). -/
def lockedPrefix : List Arrival :=
  ((List.range 3).map syntheticRound).flatten

/-- Seven further arrivals of `"EMCTRQA_A"` at the time of the last round of
`lockedPrefix`, filling the pending list of that name up to 9 entries while
the locked-in merge name stays `"EMCTRQA_C"`. -/
def backlogStream : List Arrival :=
  lockedPrefix ++
    (List.replicate 7 { name := "EMCTRQA_A", t := 60, object := ([1] : Hist) })

/-- Twelve distinct names, each arriving 2 seconds (20 tenths) after the
previous one: the gap threshold adapts to 20 on the first trigger, every
later arrival re-triggers the gap branch, the candidate boundary name
changes every time, and the group counter climbs to 11 without lock-in. -/
def churnStream : List Arrival :=
  [{ name := "EMCTRQA00", t := 0, object := [1] },
   { name := "EMCTRQA01", t := 20, object := [1] },
   { name := "EMCTRQA02", t := 40, object := [1] },
   { name := "EMCTRQA03", t := 60, object := [1] },
   { name := "EMCTRQA04", t := 80, object := [1] },
   { name := "EMCTRQA05", t := 100, object := [1] },
   { name := "EMCTRQA06", t := 120, object := [1] },
   { name := "EMCTRQA07", t := 140, object := [1] },
   { name := "EMCTRQA08", t := 160, object := [1] },
   { name := "EMCTRQA09", t := 180, object := [1] },
   { name := "EMCTRQA10", t := 200, object := [1] },
   { name := "EMCTRQA11", t := 220, object := [1] }]

/-- A state in which the name `"EMCTRQA_A"` has been seen exactly once: the
object map holds it, the list map does not (the pending list is only created
on the second sighting). -/
def singleSightingState : MergeState :=
  (processReceivedHistogram (initialState 0) "EMCTRQA_A" 0 [1]).1

/-- A state about to flush: the merge name is locked in as `"EMCTRQA_C"` and
the group counter stands at 11, so the next arrival of that name pushes it to
the flush threshold 12. -/
def flushReadyState : MergeState :=
  { initialState 0 with
    fLockInMergeName := true
    fMergeAfterObjectName := "EMCTRQA_C"
    fHistogramGroupCounter := 11 }

/-- A not-yet-locked state whose merge-after name is `"EMCTRQA_C"` with the
group counter at 5, so one more arrival of that name pushes the counter past
the grace limit. -/
def graceLimitState : MergeState :=
  { initialState 0 with
    fMergeAfterObjectName := "EMCTRQA_C"
    fHistogramGroupCounter := 5 }

/-- A locked-in state whose own merge group for the locked name
`"EMCTRQA_A"` has a pending backlog of 9 objects, one short of
`fMaxObjects`. -/
def fullBacklogState : MergeState :=
  { initialState 0 with
    fLockInMergeName := true
    fMergeAfterObjectName := "EMCTRQA_A"
    fMergeObjectMap := [("EMCTRQA_A", [1])]
    fMergeListMap := [("EMCTRQA_A", List.replicate 9 ([1] : Hist))] }

end ZMQMerger

namespace ZMQRequester

/-- The mutable fields of the request/reply `zmqReceiver`
(`src/receiver/src/zmqReceiver.h` lines 63-78) used by the embedded
operations.  Received `TObject`s are identified by their name. -/
structure RecvState where
  fVerbose : Int
  fRunNumber : Int
  fResetMerger : Bool
  fSubsystem : String
  fFirstRequest : Bool
  fRequestStreamers : Bool
  fHLTMode : String
  fSelection : String
  fPollInterval : Int
  fPollTimeout : Int
  fData : List String
deriving DecidableEq

/-- The constructor `zmqReceiver::zmqReceiver()`
(`src/receiver/src/zmqReceiver.cxx` lines 43-61).  `fPollInterval` and
`fPollTimeout` are in milliseconds. -/
def initialRecvState : RecvState where
  fVerbose := 0
  fRunNumber := 123456789
  fResetMerger := false
  fSubsystem := "EMC"
  fFirstRequest := true
  fRequestStreamers := true
  fHLTMode := "B"
  fSelection := ""
  fPollInterval := 60000
  fPollTimeout := 10000
  fData := []

/-- Leading-digit accumulation of C `atoi`: consume digits until the first
non-digit character. -/
def digitsVal : List Char → Int → Int
  | [], acc => acc
  | c :: rest, acc =>
    if c.isDigit then digitsVal rest (acc * 10 + ((c.toNat : Int) - 48))
    else acc

/-- C `atoi` (used at line 169 on the `run` value): skip leading whitespace,
accept an optional sign, convert the leading run of digits; a string with no
leading digits converts to 0. -/
def atoi (str : String) : Int :=
  let cs := str.toList.dropWhile (fun c =>
    c = ' ' ∨ c = '\t' ∨ c = '\n' ∨ c = '\x0b' ∨ c = '\x0c' ∨ c = '\r')
  match cs with
  | '-' :: rest => -(digitsVal rest 0)
  | '+' :: rest => digitsVal rest 0
  | _ => digitsVal cs 0

/-- `std::map<std::string,std::string>::operator[]` as used on the parsed
INFO parameters (lines 169-170): absent keys read as the empty string. -/
def mapGet : List (String × String) → String → String
  | [], _ => ""
  | (k, v) :: rest, key => if k = key then v else mapGet rest key

/-- One frame of a received multi-part message, after the transport-level
decoding: an INFO frame carries parsed `key=value` pairs, a streamer-infos
frame and a data frame each carry one deserializable object. -/
inductive Frame where
  | info (params : List (String × String))
  | streamerInfos (obj : String)
  | dataObj (obj : String)
deriving DecidableEq

/-- One `WriteToFile` invocation (lines 213-238): the run number and HLT mode
determine the file name; the stored objects are written. -/
structure FileWrite where
  runNumber : Int
  hltMode : String
  objects : List String
deriving DecidableEq

/-- The frame loop of `zmqReceiver::ReceiveData` (lines 155-188).  An INFO
frame updates the run number (via `atoi`) and HLT mode and adds no object;
the streamer-infos branch (lines 179-182) has no `continue`, so its object is
also appended to `fData`; a data frame appends its object. -/
def processFrames (s : RecvState) : List Frame → RecvState
  | [] => s
  | Frame.info params :: rest =>
    processFrames
      { s with fRunNumber := atoi (mapGet params "run"),
               fHLTMode := mapGet params "HLT_MODE" } rest
  | Frame.streamerInfos obj :: rest =>
    processFrames { s with fData := s.fData ++ [obj] } rest
  | Frame.dataObj obj :: rest =>
    processFrames { s with fData := s.fData ++ [obj] } rest

/-- `zmqReceiver::ReceiveData` (lines 145-203): clear the previous data,
process every frame, then write the collected objects to a file unless the
current run number is 0 ("not a real run").  The returned list holds the
file writes performed by this call. -/
def receiveData (s : RecvState) (frames : List Frame) :
    RecvState × List FileWrite :=
  let s1 := { s with fData := [] }
  let s2 := processFrames s1 frames
  if s2.fRunNumber ≠ 0 then
    (s2, [{ runNumber := s2.fRunNumber, hltMode := s2.fHLTMode,
            objects := s2.fData }])
  else
    (s2, [])

/-- The `zmq_poll` call of `zmqReceiver::Run` (lines 89-96): one socket is
polled and the timeout argument is the literal `-1` (block indefinitely);
the configured `fPollTimeout` does not appear in the call. -/
structure PollCall where
  nItems : Nat
  timeoutArg : Int
deriving DecidableEq

/-- See `PollCall`. -/
def runPollCall (_s : RecvState) : PollCall :=
  { nItems := 1, timeoutArg := -1 }

/-- The outcome of one iteration of the main loop of `zmqReceiver::Run`
(lines 81-136), as seen at the `zmq_poll` return: the context was terminated,
a SIGINT was caught, the poll returned with no readable socket (the peer is
presumed dead; `reinitResult` is what `alizmq_socket_init` then returns), or
data is readable. -/
inductive LoopEvent where
  | etermInterrupt
  | sigintCaught
  | peerTimeout (reinitResult : Int)
  | dataReady
deriving DecidableEq

/-- One iteration of `zmqReceiver::Run`: `some c` means `Run` returns `c`,
`none` means the loop continues with the next request cycle.  Context
termination returns -1 (line 102); a caught SIGINT breaks the loop, after
which `Run` returns 0 (lines 108-110, 138); a timeout with failed socket
re-initialization returns -1 (lines 119-123), with successful
re-initialization the loop continues (line 126); received data is processed
and the loop continues. -/
def runStep : LoopEvent → Option Int
  | LoopEvent.etermInterrupt => some (-1)
  | LoopEvent.sigintCaught => some 0
  | LoopEvent.peerTimeout r => if r < 0 then some (-1) else none
  | LoopEvent.dataReady => none

/-- `zmqReceiver::Run` over a finite list of loop events: `some c` when the
function returns with value `c`, `none` when every event leaves the loop
running. -/
def runLoop : List LoopEvent → Option Int
  | [] => none
  | e :: rest =>
    match runStep e with
    | some c => some c
    | none => runLoop rest

/-- `main` of `src/receiver/src/zmqReceive.cxx` (lines 18-61): returns 1 when
option parsing fails (`nOptions <= 0`) or `InitZMQ` fails; otherwise it calls
`Run`, discards its return value, cleans up and returns 0. -/
def mainExitCode (nOptions : Int) (initRC : Int)
    (events : List LoopEvent) : Int :=
  if nOptions ≤ 0 then 1
  else if initRC < 0 then 1
  else (fun _runResult => (0 : Int)) (runLoop events)

end ZMQRequester

/-!
Helper lemmas about the steps of `processReceivedHistogram`: which fields
each step preserves, and how the group counter and the lock flag move.
-/

namespace ZMQMerger

theorem handleJustWrote_counter (s : MergeState) (t : Tenths) :
    (handleJustWrote s t).fHistogramGroupCounter = s.fHistogramGroupCounter := by
  unfold handleJustWrote; split <;> rfl

theorem handleJustWrote_lock (s : MergeState) (t : Tenths) :
    (handleJustWrote s t).fLockInMergeName = s.fLockInMergeName := by
  unfold handleJustWrote; split <;> rfl

theorem handleJustWrote_mergeAfter (s : MergeState) (t : Tenths) :
    (handleJustWrote s t).fMergeAfterObjectName = s.fMergeAfterObjectName := by
  unfold handleJustWrote; split <;> rfl

theorem handleJustWrote_maxObjects (s : MergeState) (t : Tenths) :
    (handleJustWrote s t).fMaxObjects = s.fMaxObjects := by
  unfold handleJustWrote; split <;> rfl

theorem handleJustWrote_objMap (s : MergeState) (t : Tenths) :
    (handleJustWrote s t).fMergeObjectMap = s.fMergeObjectMap := by
  unfold handleJustWrote; split <;> rfl

theorem handleJustWrote_listMap (s : MergeState) (t : Tenths) :
    (handleJustWrote s t).fMergeListMap = s.fMergeListMap := by
  unfold handleJustWrote; split <;> rfl

theorem addToMaps_counter (s : MergeState) (n : String) (o : Hist) :
    (addToMaps s n o).1.fHistogramGroupCounter = s.fHistogramGroupCounter := by
  unfold addToMaps
  split
  · rfl
  · rfl
  · dsimp only
    split <;> rfl

theorem addToMaps_lock (s : MergeState) (n : String) (o : Hist) :
    (addToMaps s n o).1.fLockInMergeName = s.fLockInMergeName := by
  unfold addToMaps
  split
  · rfl
  · rfl
  · dsimp only
    split <;> rfl

theorem addToMaps_mergeAfter (s : MergeState) (n : String) (o : Hist) :
    (addToMaps s n o).1.fMergeAfterObjectName = s.fMergeAfterObjectName := by
  unfold addToMaps
  split
  · rfl
  · rfl
  · dsimp only
    split <;> rfl

theorem confirmCandidate_mergeAfter (s : MergeState) (n : String) :
    (confirmCandidate s n).fMergeAfterObjectName = s.fMergeAfterObjectName := by
  unfold confirmCandidate
  split
  · dsimp only
    split <;> rfl
  · rfl

theorem confirmCandidate_counter_mono (s : MergeState) (n : String) :
    s.fHistogramGroupCounter ≤ (confirmCandidate s n).fHistogramGroupCounter := by
  unfold confirmCandidate
  split
  · dsimp only
    split <;> dsimp only <;> omega
  · omega

theorem confirmCandidate_counter_le (s : MergeState) (n : String) :
    (confirmCandidate s n).fHistogramGroupCounter ≤ s.fHistogramGroupCounter + 1 := by
  unfold confirmCandidate
  split
  · dsimp only
    split <;> dsimp only <;> omega
  · omega

theorem confirmCandidate_lock_of_true (s : MergeState) (n : String)
    (h : s.fLockInMergeName = true) :
    (confirmCandidate s n).fLockInMergeName = true := by
  unfold confirmCandidate
  split
  · dsimp only
    split <;> dsimp only <;> first | rfl | exact h
  · exact h

theorem confirmCandidate_hit_locked (s : MergeState) (n : String)
    (hl : s.fLockInMergeName = true) (hc : s.fMergeAfterObjectName = n)
    (h0 : 0 < s.fHistogramGroupCounter) :
    confirmCandidate s n =
      { s with fHistogramGroupCounter := s.fHistogramGroupCounter + 1 } := by
  unfold confirmCandidate
  rw [if_pos ⟨hc, h0⟩]
  dsimp only
  rw [if_neg (by simp [hl])]

theorem confirmCandidate_hit_unlocked (s : MergeState) (n : String)
    (hl : s.fLockInMergeName = false) (hc : s.fMergeAfterObjectName = n)
    (h0 : 0 < s.fHistogramGroupCounter) :
    confirmCandidate s n =
      (if 5 < s.fHistogramGroupCounter + 1 then
        { s with fHistogramGroupCounter := s.fHistogramGroupCounter + 1,
                 fLockInMergeName := true }
       else
        { s with fHistogramGroupCounter := s.fHistogramGroupCounter + 1 }) := by
  unfold confirmCandidate
  rw [if_pos ⟨hc, h0⟩]
  dsimp only
  by_cases h5 : 5 < s.fHistogramGroupCounter + 1
  · rw [if_pos h5, if_pos ⟨h5, hl⟩]
  · rw [if_neg h5, if_neg (by simp [h5])]

theorem confirmCandidate_miss (s : MergeState) (n : String)
    (h : ¬(s.fMergeAfterObjectName = n ∧ 0 < s.fHistogramGroupCounter)) :
    confirmCandidate s n = s := by
  unfold confirmCandidate
  rw [if_neg h]

theorem gapUpdate_of_locked (s : MergeState) (t : Tenths)
    (h : s.fLockInMergeName = true) : gapUpdate s t = s := by
  unfold gapUpdate
  rw [if_neg (by simp [h])]

theorem gapUpdate_counter_mono (s : MergeState) (t : Tenths) :
    s.fHistogramGroupCounter ≤ (gapUpdate s t).fHistogramGroupCounter := by
  unfold gapUpdate
  dsimp only
  split_ifs <;> (try dsimp only) <;> omega

theorem gapUpdate_counter_le (s : MergeState) (t : Tenths) :
    (gapUpdate s t).fHistogramGroupCounter ≤ s.fHistogramGroupCounter + 1 := by
  unfold gapUpdate
  dsimp only
  split_ifs <;> (try dsimp only) <;> omega

theorem writeFile_resets (s : MergeState) :
    (writeFile s).fHistogramGroupCounter = 0 ∧
    (writeFile s).fLockInMergeName = false ∧
    (writeFile s).fMaxTimeBetweenObjects = 1 ∧
    (writeFile s).fPreviousObjectName = "" ∧
    (writeFile s).fMergeAfterObjectName = "" ∧
    (writeFile s).fJustWroteFile = true ∧
    (writeFile s).fMergeObjectMap = [] := by
  refine ⟨rfl, rfl, rfl, rfl, rfl, rfl, rfl⟩

end ZMQMerger

/-!
Additional helper lemmas for the merge-correctness and size-valve claims.
-/

namespace ZMQMerger

theorem histAdd_length (p h : Hist) : (histAdd p h).length = p.length := by
  unfold histAdd
  split
  · rename_i hh
    simp [hh]
  · rfl

theorem histAdd_mismatch (p bad : Hist) (h : bad.length ≠ p.length) :
    histAdd p bad = p := by
  unfold histAdd
  rw [if_neg h]

theorem mergeHists_drop_mismatch (pre : List Hist) :
    ∀ (p bad : Hist) (post : List Hist), bad.length ≠ p.length →
      mergeHists p (pre ++ bad :: post) = mergeHists p (pre ++ post) := by
  induction pre with
  | nil =>
    intro p bad post h
    show mergeHists (histAdd p bad) post = mergeHists p post
    rw [histAdd_mismatch p bad h]
  | cons hh tl ih =>
    intro p bad post h
    show mergeHists (histAdd p hh) (tl ++ bad :: post) =
      mergeHists (histAdd p hh) (tl ++ post)
    exact ih (histAdd p hh) bad post (by rw [histAdd_length]; exact h)

theorem addToMaps_valve (s : MergeState) (n : String) (o : Hist) (h : Hist)
    (l : List Hist) (hobj : mapLookup s.fMergeObjectMap n = some h)
    (hlist : mapLookup s.fMergeListMap n = some l)
    (hmax : s.fMaxObjects ≤ (l.length : Int) + 1)
    (hlock : s.fLockInMergeName = true)
    (hcand : s.fMergeAfterObjectName = n) :
    (addToMaps s n o).2 = true := by
  unfold addToMaps
  rw [hobj, hlist]
  dsimp only
  rw [if_pos ⟨by simpa using hmax, hlock, hcand⟩]

end ZMQMerger

/-!
The claim theorems.
-/

open ZMQMerger ZMQRequester

/-- Claim C2 (code bug): after a wait with no ready channel, a failed socket
re-initialization makes `zmqReceiver::Run` return -1, but `main` discards
that return value and exits with status 0, so the process does not exit with
a non-zero status as claimed; a successful re-initialization lets the loop
continue with the next request cycle. -/
theorem C2_reconnect_failure_exit :
    runLoop [LoopEvent.peerTimeout (-1)] = some (-1) ∧
    mainExitCode 1 0 [LoopEvent.peerTimeout (-1)] = 0 ∧
    runLoop [LoopEvent.peerTimeout 1, LoopEvent.dataReady] = none :=
  ⟨rfl, rfl, rfl⟩

/-- Claim C3 (code bug): the `zmq_poll` call of the request loop passes the
literal timeout -1 (block indefinitely) for every configuration, never the
configured `fPollTimeout`, whose default is 10000 ms (10 seconds). -/
theorem C3_poll_timeout_unused :
    (∀ s : RecvState, (runPollCall s).timeoutArg = -1) ∧
    initialRecvState.fPollTimeout = 10000 ∧
    (runPollCall initialRecvState).timeoutArg ≠ initialRecvState.fPollTimeout :=
  ⟨fun _ => rfl, rfl, by decide⟩

/-- Claim C7 (code bug): a StartOfRun arriving while the store is non-empty
because some name was seen exactly once (so it has an object-map entry but no
pending list) makes `resetAllData` dereference a `NULL` merging list
(modelled by `none`) instead of recoverably discarding the state. -/
theorem C7_missed_eor_null_deref :
    singleSightingState.fMergeObjectMap ≠ [] ∧
    handleSOR singleSightingState 42 100 = none := by
  constructor
  · decide
  · decide

/-- Claim C5, counterexample: a reachable state (after three synthetic
rounds) with the merge name locked in and the group counter at 3; the next
arrival of the locked-in name increments the counter to 4 without any flush,
so the counter is not frozen once `lockedIn` is true. -/
theorem C5_frozen_counter_cex :
    (runArrivals (initialState 0) lockedPrefix).state.fLockInMergeName = true ∧
    (runArrivals (initialState 0) lockedPrefix).state.fHistogramGroupCounter = 3 ∧
    (processReceivedHistogram (runArrivals (initialState 0) lockedPrefix).state
      "EMCTRQA_C" 90 [1]).2.wrote = false ∧
    (processReceivedHistogram (runArrivals (initialState 0) lockedPrefix).state
      "EMCTRQA_C" 90 [1]).1.fHistogramGroupCounter = 4 := by
  decide

/-- Claim C4, counterexample: under a stream in which the candidate boundary
name changes on every gap (so it is never confirmed twice in a row), the
group counter reaches 6 and then 11 with `lockedIn` still false — the
grace-limit check only runs on arrivals of the current candidate name — and
when the candidate finally arrives, the counter jumps to 12, so the flush
fires and resets `lockedIn` to false in the same arrival. -/
theorem C4_forced_lock_cex :
    (runArrivals (initialState 0) (churnStream.take 7)).state.fHistogramGroupCounter = 6 ∧
    (runArrivals (initialState 0) (churnStream.take 7)).state.fLockInMergeName = false ∧
    (runArrivals (initialState 0) churnStream).state.fHistogramGroupCounter = 11 ∧
    (runArrivals (initialState 0) churnStream).state.fLockInMergeName = false ∧
    (runArrivals (initialState 0) churnStream).state.fMergeAfterObjectName = "EMCTRQA10" ∧
    (processReceivedHistogram (runArrivals (initialState 0) churnStream).state
      "EMCTRQA10" 240 [1]).1.fLockInMergeName = false ∧
    (processReceivedHistogram (runArrivals (initialState 0) churnStream).state
      "EMCTRQA10" 240 [1]).2.wrote = true := by
  decide

/-- Claim C6, counterexample: a reachable locked-in state (merge name
`"EMCTRQA_C"`) in which an arrival of `"EMCTRQA_A"` brings that group's
pending backlog up to `fMaxObjects` (10 entries), yet no full merge is
triggered, because the size valve additionally requires the arriving name to
equal the locked-in merge name. -/
theorem C6_size_valve_cex :
    (runArrivals (initialState 0) backlogStream).state.fLockInMergeName = true ∧
    (runArrivals (initialState 0) backlogStream).state.fMergeAfterObjectName = "EMCTRQA_C" ∧
    (runArrivals (initialState 0) backlogStream).state.fMaxObjects = 10 ∧
    ((mapLookup (processReceivedHistogram (runArrivals (initialState 0) backlogStream).state
      "EMCTRQA_A" 60 [1]).1.fMergeListMap "EMCTRQA_A").map List.length) = some 10 ∧
    (processReceivedHistogram (runArrivals (initialState 0) backlogStream).state
      "EMCTRQA_A" 60 [1]).2.sizeMerge = false ∧
    (processReceivedHistogram (runArrivals (initialState 0) backlogStream).state
      "EMCTRQA_A" 60 [1]).2.wrote = false := by
  decide

/-- Claim C9, counterexample: an Info frame whose `run` value does not parse
as an integer stores run number 0 (the `atoi` result), not the unknown-run
sentinel 12345678. -/
theorem C9_malformed_run_cex :
    atoi "abc" = 0 ∧
    (receiveData initialRecvState
      [Frame.info [("run", "abc")], Frame.dataObj "h1"]).1.fRunNumber = 0 ∧
    (0 : Int) ≠ ZMQMerger.kUnknownRunNumber := by
  decide

/-- Claim C8: merging folds each pending object into the accumulator by
bin-wise addition (`[1,2,3]` and `[4,5,6]` give `[5,7,9]`), and a
shape-mismatched pending object is dropped, leaves the accumulator unchanged
and does not abort the merge of the remaining objects. -/
theorem C8_merge_addition_and_mismatch :
    mergeHists [1, 2, 3] [[4, 5, 6]] = [5, 7, 9] ∧
    ∀ (p : Hist) (pre post : List Hist) (bad : Hist),
      bad.length ≠ p.length →
      mergeHists p (pre ++ bad :: post) = mergeHists p (pre ++ post) :=
  ⟨by decide, fun p pre post bad h => mergeHists_drop_mismatch pre p bad post h⟩

/-- Claim C8, witness: dropping the mismatched `[9,9]` (length 2 against
accumulator length 3) from the pending list leaves the merge of the rest. -/
theorem C8_merge_addition_and_mismatch_witness :
    ([9, 9] : Hist).length ≠ ([1, 2, 3] : Hist).length ∧
    mergeHists [1, 2, 3] ([] ++ [9, 9] :: [[4, 5, 6]]) =
      mergeHists [1, 2, 3] ([] ++ [[4, 5, 6]]) :=
  ⟨by decide,
   C8_merge_addition_and_mismatch.2 [1, 2, 3] [] [[4, 5, 6]] [9, 9] (by decide)⟩

/-- Claim C10: each received message triggers exactly one file write when the
run number after decoding is non-zero, and no file write when it is 0. -/
theorem C10_write_iff_nonzero_run (s : RecvState) (frames : List Frame) :
    ((receiveData s frames).1.fRunNumber = 0 → (receiveData s frames).2 = []) ∧
    ((receiveData s frames).1.fRunNumber ≠ 0 →
      (receiveData s frames).2.length = 1) := by
  unfold receiveData
  dsimp only
  split_ifs with h <;> simp_all

/-- Claim C10, witness: a message carrying run number 3 and one data object
produces exactly one file write. -/
theorem C10_write_iff_nonzero_run_witness :
    (receiveData initialRecvState
      [Frame.info [("run", "3")], Frame.dataObj "h1"]).2.length = 1 :=
  (C10_write_iff_nonzero_run initialRecvState
    [Frame.info [("run", "3")], Frame.dataObj "h1"]).2 (by decide)

/-!
Field-level helper lemmas used by the remaining claim proofs.
-/

namespace ZMQMerger

theorem confirmCandidate_hit_counter (s : MergeState) (n : String)
    (hc : s.fMergeAfterObjectName = n) (h0 : 0 < s.fHistogramGroupCounter) :
    (confirmCandidate s n).fHistogramGroupCounter =
      s.fHistogramGroupCounter + 1 := by
  unfold confirmCandidate
  rw [if_pos ⟨hc, h0⟩]
  dsimp only
  split <;> rfl

theorem confirmCandidate_grace_locks (s : MergeState) (n : String)
    (hl : s.fLockInMergeName = false) (hc : s.fMergeAfterObjectName = n)
    (h0 : 0 < s.fHistogramGroupCounter)
    (h5 : 5 < s.fHistogramGroupCounter + 1) :
    (confirmCandidate s n).fLockInMergeName = true := by
  unfold confirmCandidate
  rw [if_pos ⟨hc, h0⟩]
  dsimp only
  rw [if_pos ⟨h5, hl⟩]

theorem confirmCandidate_nograce_lock (s : MergeState) (n : String)
    (hl : s.fLockInMergeName = false) (hc : s.fMergeAfterObjectName = n)
    (h0 : 0 < s.fHistogramGroupCounter)
    (h5 : ¬ 5 < s.fHistogramGroupCounter + 1) :
    (confirmCandidate s n).fLockInMergeName = false := by
  unfold confirmCandidate
  rw [if_pos ⟨hc, h0⟩]
  dsimp only
  rw [if_neg (fun hh => h5 hh.1)]
  exact hl

theorem gapUpdate_confirm_locked (s : MergeState) (n : String) (t : Tenths)
    (h : s.fLockInMergeName = true) :
    gapUpdate (confirmCandidate s n) t = confirmCandidate s n :=
  gapUpdate_of_locked _ t (confirmCandidate_lock_of_true s n h)

end ZMQMerger

/-- Claim C1: on the synthetic stream of three names repeated in rounds 3
seconds apart, the engine locks in the last name of the round
(`"EMCTRQA_C"`) and exactly one flush happens across the twelve rounds,
leaving all inference fields reset with `fJustWroteFile` set; and in general,
once the merge name is locked in and the arriving name equals it while the
counter is about to reach 12, `processReceivedHistogram` performs the
merge-and-flush and resets the inference fields. -/
theorem C1_convergence_and_flush :
    ((runArrivals (initialState 0) (syntheticStream.take 10)).state.fLockInMergeName = true ∧
     (runArrivals (initialState 0) (syntheticStream.take 10)).state.fMergeAfterObjectName = "EMCTRQA_C" ∧
     (runArrivals (initialState 0) syntheticStream).writes = 1 ∧
     (runArrivals (initialState 0) syntheticStream).state.fHistogramGroupCounter = 0 ∧
     (runArrivals (initialState 0) syntheticStream).state.fLockInMergeName = false ∧
     (runArrivals (initialState 0) syntheticStream).state.fMaxTimeBetweenObjects = 1 ∧
     (runArrivals (initialState 0) syntheticStream).state.fPreviousObjectName = "" ∧
     (runArrivals (initialState 0) syntheticStream).state.fMergeAfterObjectName = "" ∧
     (runArrivals (initialState 0) syntheticStream).state.fJustWroteFile = true ∧
     (runArrivals (initialState 0) syntheticStream).state.fMergeObjectMap = []) ∧
    (∀ (s : MergeState) (n : String) (t : Tenths) (o : Hist),
      strstrContains n s.fHistIdentifier = true →
      s.fLockInMergeName = true →
      s.fMergeAfterObjectName = n →
      11 ≤ s.fHistogramGroupCounter →
      (processReceivedHistogram s n t o).2.wrote = true ∧
      (processReceivedHistogram s n t o).1.fHistogramGroupCounter = 0 ∧
      (processReceivedHistogram s n t o).1.fLockInMergeName = false ∧
      (processReceivedHistogram s n t o).1.fMaxTimeBetweenObjects = 1 ∧
      (processReceivedHistogram s n t o).1.fPreviousObjectName = "" ∧
      (processReceivedHistogram s n t o).1.fMergeAfterObjectName = "" ∧
      (processReceivedHistogram s n t o).1.fJustWroteFile = true ∧
      (processReceivedHistogram s n t o).1.fMergeObjectMap = []) := by
  constructor
  · decide
  · intro s n t o hpass hlock hcand hcnt
    have h2l : (addToMaps (handleJustWrote s t) n o).1.fLockInMergeName = true := by
      rw [addToMaps_lock, handleJustWrote_lock]; exact hlock
    have h2c : (addToMaps (handleJustWrote s t) n o).1.fMergeAfterObjectName = n := by
      rw [addToMaps_mergeAfter, handleJustWrote_mergeAfter]; exact hcand
    have h2n : (addToMaps (handleJustWrote s t) n o).1.fHistogramGroupCounter =
        s.fHistogramGroupCounter := by
      rw [addToMaps_counter, handleJustWrote_counter]
    have hcc : (confirmCandidate (addToMaps (handleJustWrote s t) n o).1 n).fHistogramGroupCounter =
        (addToMaps (handleJustWrote s t) n o).1.fHistogramGroupCounter + 1 :=
      confirmCandidate_hit_counter _ n h2c (by omega)
    have hcl : (confirmCandidate (addToMaps (handleJustWrote s t) n o).1 n).fLockInMergeName = true :=
      confirmCandidate_lock_of_true _ n h2l
    have hcm : (confirmCandidate (addToMaps (handleJustWrote s t) n o).1 n).fMergeAfterObjectName = n := by
      rw [confirmCandidate_mergeAfter]; exact h2c
    unfold processReceivedHistogram
    rw [if_pos hpass]
    dsimp only
    rw [gapUpdate_confirm_locked _ n t h2l]
    split_ifs with hfin
    · exact ⟨rfl, rfl, rfl, rfl, rfl, rfl, rfl, rfl⟩
    · exfalso
      apply hfin
      refine ⟨?_, hcl, hcm⟩
      dsimp only
      omega

/-- Claim C1, witness: the general flush conclusion instantiated at a
concrete locked-in state with counter 11 and an arrival of the locked-in
name. -/
theorem C1_convergence_and_flush_witness :
    (processReceivedHistogram flushReadyState "EMCTRQA_C" 400 [1]).2.wrote = true ∧
    (processReceivedHistogram flushReadyState "EMCTRQA_C" 400 [1]).1.fHistogramGroupCounter = 0 ∧
    (processReceivedHistogram flushReadyState "EMCTRQA_C" 400 [1]).1.fJustWroteFile = true :=
  let h := C1_convergence_and_flush.2 flushReadyState "EMCTRQA_C" 400 [1]
    (by decide) (by decide) rfl (by decide)
  ⟨h.1, h.2.1, h.2.2.2.2.2.2.1⟩

/-- Claim C4, amended: on an arrival of the current candidate boundary name
with a positive counter while not locked, the counter is incremented and, if
it then exceeds the grace limit 5, the name is locked in — unless the
incremented counter has already reached the flush threshold 12, in which
case the same arrival triggers the flush (which resets the inference fields,
`lockedIn` included).  The grace-limit check runs only on such
candidate-name arrivals, so streams that starve the candidate can drive the
counter past 5 without locking (see the counterexample). -/
theorem C4_forced_lock_amended :
    ∀ (s : MergeState) (n : String) (t : Tenths) (o : Hist),
      strstrContains n s.fHistIdentifier = true →
      s.fMergeAfterObjectName = n →
      0 < s.fHistogramGroupCounter →
      s.fLockInMergeName = false →
      (s.fHistogramGroupCounter + 1 < 12 →
        s.fHistogramGroupCounter + 1 ≤
          (processReceivedHistogram s n t o).1.fHistogramGroupCounter ∧
        (5 < s.fHistogramGroupCounter + 1 →
          (processReceivedHistogram s n t o).1.fLockInMergeName = true)) ∧
      (12 ≤ s.fHistogramGroupCounter + 1 →
        (processReceivedHistogram s n t o).2.wrote = true) := by
  intro s n t o hpass hcand hc0 hlock
  have hXn : (addToMaps (handleJustWrote s t) n o).1.fHistogramGroupCounter =
      s.fHistogramGroupCounter := by
    rw [addToMaps_counter, handleJustWrote_counter]
  have hXl : (addToMaps (handleJustWrote s t) n o).1.fLockInMergeName = false := by
    rw [addToMaps_lock, handleJustWrote_lock]; exact hlock
  have hXc : (addToMaps (handleJustWrote s t) n o).1.fMergeAfterObjectName = n := by
    rw [addToMaps_mergeAfter, handleJustWrote_mergeAfter]; exact hcand
  have hcc : (confirmCandidate (addToMaps (handleJustWrote s t) n o).1 n).fHistogramGroupCounter =
      (addToMaps (handleJustWrote s t) n o).1.fHistogramGroupCounter + 1 :=
    confirmCandidate_hit_counter _ n hXc (by omega)
  have hcm : (confirmCandidate (addToMaps (handleJustWrote s t) n o).1 n).fMergeAfterObjectName = n := by
    rw [confirmCandidate_mergeAfter]; exact hXc
  unfold processReceivedHistogram
  rw [if_pos hpass]
  dsimp only
  by_cases h5 : 5 < (addToMaps (handleJustWrote s t) n o).1.fHistogramGroupCounter + 1
  · have hgl : (confirmCandidate (addToMaps (handleJustWrote s t) n o).1 n).fLockInMergeName = true :=
      confirmCandidate_grace_locks _ n hXl hXc (by omega) h5
    rw [gapUpdate_of_locked _ t hgl]
    split_ifs with hfin
    · constructor
      · intro hlt
        exfalso
        have h12 := hfin.1
        try dsimp only at h12
        omega
      · intro _
        rfl
    · constructor
      · intro _
        refine ⟨?_, fun _ => hgl⟩
        dsimp only
        omega
      · intro h12
        exfalso
        apply hfin
        refine ⟨?_, hgl, hcm⟩
        dsimp only
        omega
  · have hnl : (confirmCandidate (addToMaps (handleJustWrote s t) n o).1 n).fLockInMergeName = false :=
      confirmCandidate_nograce_lock _ n hXl hXc (by omega) h5
    have gm := gapUpdate_counter_mono
      (confirmCandidate (addToMaps (handleJustWrote s t) n o).1 n) t
    have gl := gapUpdate_counter_le
      (confirmCandidate (addToMaps (handleJustWrote s t) n o).1 n) t
    split_ifs with hfin
    · constructor
      · intro hlt
        exfalso
        have h12 := hfin.1
        try dsimp only at h12
        omega
      · intro h12
        rfl
    · constructor
      · intro _
        constructor
        · dsimp only
          omega
        · intro h5'
          exfalso
          omega
      · intro h12
        exfalso
        omega

/-- Claim C4, witness: the amended conclusion at a concrete unlocked state
with counter 5 and an arrival of the candidate name: the counter moves past
the grace limit and the name is locked in. -/
theorem C4_forced_lock_amended_witness :
    graceLimitState.fHistogramGroupCounter + 1 ≤
      (processReceivedHistogram graceLimitState "EMCTRQA_C" 0 [1]).1.fHistogramGroupCounter ∧
    (processReceivedHistogram graceLimitState "EMCTRQA_C" 0 [1]).1.fLockInMergeName = true :=
  let h := C4_forced_lock_amended graceLimitState "EMCTRQA_C" 0 [1]
    (by decide) rfl (by decide) rfl
  ⟨(h.1 (by decide)).1, (h.1 (by decide)).2 (by decide)⟩

/-- Claim C5, amended: across arrivals the group counter never decreases
except at the flush-time reset; once the merge name is locked in, an arrival
leaves the counter unchanged unless the arriving name equals the locked-in
name (then the counter still increments — the gap-based increments, not the
counter itself, are what locking disables) until the flush-time reset. -/
theorem C5_counter_monotone_amended :
    ∀ (s : MergeState) (n : String) (t : Tenths) (o : Hist),
      ((processReceivedHistogram s n t o).2.wrote = false →
        s.fHistogramGroupCounter ≤
          (processReceivedHistogram s n t o).1.fHistogramGroupCounter) ∧
      ((processReceivedHistogram s n t o).2.wrote = false →
        s.fLockInMergeName = true →
        ((processReceivedHistogram s n t o).1.fHistogramGroupCounter =
            s.fHistogramGroupCounter ∨
         (s.fMergeAfterObjectName = n ∧
          (processReceivedHistogram s n t o).1.fHistogramGroupCounter =
            s.fHistogramGroupCounter + 1))) := by
  intro s n t o
  by_cases hpass : strstrContains n s.fHistIdentifier = true
  · have hXn : (addToMaps (handleJustWrote s t) n o).1.fHistogramGroupCounter =
        s.fHistogramGroupCounter := by
      rw [addToMaps_counter, handleJustWrote_counter]
    have hXm : (addToMaps (handleJustWrote s t) n o).1.fMergeAfterObjectName =
        s.fMergeAfterObjectName := by
      rw [addToMaps_mergeAfter, handleJustWrote_mergeAfter]
    by_cases hlock : s.fLockInMergeName = true
    · have hXl : (addToMaps (handleJustWrote s t) n o).1.fLockInMergeName = true := by
        rw [addToMaps_lock, handleJustWrote_lock]; exact hlock
      by_cases hhit : (addToMaps (handleJustWrote s t) n o).1.fMergeAfterObjectName = n ∧
          0 < (addToMaps (handleJustWrote s t) n o).1.fHistogramGroupCounter
      · have hcc := confirmCandidate_hit_counter
          (addToMaps (handleJustWrote s t) n o).1 n hhit.1 hhit.2
        unfold processReceivedHistogram
        rw [if_pos hpass]
        dsimp only
        rw [gapUpdate_confirm_locked _ n t hXl]
        split_ifs with hfin
        · exact ⟨fun hw => by simp at hw, fun hw => by simp at hw⟩
        · constructor
          · intro _
            dsimp only
            omega
          · intro _ _
            refine Or.inr ⟨?_, ?_⟩
            · rw [← hXm]; exact hhit.1
            · dsimp only
              omega
      · have hmiss := confirmCandidate_miss
          (addToMaps (handleJustWrote s t) n o).1 n hhit
        unfold processReceivedHistogram
        rw [if_pos hpass]
        dsimp only
        rw [gapUpdate_confirm_locked _ n t hXl, hmiss]
        split_ifs with hfin
        · exact ⟨fun hw => by simp at hw, fun hw => by simp at hw⟩
        · constructor
          · intro _
            dsimp only
            omega
          · intro _ _
            refine Or.inl ?_
            dsimp only
            omega
    · have m2 := confirmCandidate_counter_mono
        (addToMaps (handleJustWrote s t) n o).1 n
      have m3 := gapUpdate_counter_mono
        (confirmCandidate (addToMaps (handleJustWrote s t) n o).1 n) t
      unfold processReceivedHistogram
      rw [if_pos hpass]
      dsimp only
      split_ifs with hfin
      · exact ⟨fun hw => by simp at hw, fun hw => by simp at hw⟩
      · constructor
        · intro _
          dsimp only
          omega
        · intro _ hl
          exact absurd hl hlock
  · unfold processReceivedHistogram
    rw [if_neg hpass]
    exact ⟨fun _ => le_refl _, fun _ _ => Or.inl rfl⟩

/-- Claim C5, amended-claim witness: at the reachable locked-in state after
three synthetic rounds, the arrival of the locked-in name is exactly the
candidate-name case of the amended claim. -/
theorem C5_counter_monotone_amended_witness :
    (runArrivals (initialState 0) lockedPrefix).state.fHistogramGroupCounter ≤
      (processReceivedHistogram (runArrivals (initialState 0) lockedPrefix).state
        "EMCTRQA_C" 90 [1]).1.fHistogramGroupCounter ∧
    ((processReceivedHistogram (runArrivals (initialState 0) lockedPrefix).state
        "EMCTRQA_C" 90 [1]).1.fHistogramGroupCounter =
      (runArrivals (initialState 0) lockedPrefix).state.fHistogramGroupCounter ∨
     ((runArrivals (initialState 0) lockedPrefix).state.fMergeAfterObjectName = "EMCTRQA_C" ∧
      (processReceivedHistogram (runArrivals (initialState 0) lockedPrefix).state
        "EMCTRQA_C" 90 [1]).1.fHistogramGroupCounter =
      (runArrivals (initialState 0) lockedPrefix).state.fHistogramGroupCounter + 1)) :=
  let h := C5_counter_monotone_amended
    (runArrivals (initialState 0) lockedPrefix).state "EMCTRQA_C" 90 [1]
  ⟨h.1 (by decide), h.2 (by decide) (by decide)⟩

/-- Claim C6, amended: once the merge name is locked in, an arrival whose
name equals the locked-in merge name and whose own group's pending backlog
reaches `fMaxObjects` (counting the object just appended) triggers an
immediate full merge of all groups; arrivals of other names never trigger
the size valve (see the counterexample). -/
theorem C6_size_valve_amended :
    ∀ (s : MergeState) (n : String) (t : Tenths) (o h : Hist) (l : List Hist),
      strstrContains n s.fHistIdentifier = true →
      s.fLockInMergeName = true →
      s.fMergeAfterObjectName = n →
      mapLookup s.fMergeObjectMap n = some h →
      mapLookup s.fMergeListMap n = some l →
      s.fMaxObjects ≤ (l.length : Int) + 1 →
      (processReceivedHistogram s n t o).2.sizeMerge = true := by
  intro s n t o h l hpass hlock hcand hobj hlist hmax
  have hval : (addToMaps (handleJustWrote s t) n o).2 = true := by
    apply addToMaps_valve _ n o h l
    · rw [handleJustWrote_objMap]; exact hobj
    · rw [handleJustWrote_listMap]; exact hlist
    · rw [handleJustWrote_maxObjects]; exact hmax
    · rw [handleJustWrote_lock]; exact hlock
    · rw [handleJustWrote_mergeAfter]; exact hcand
  unfold processReceivedHistogram
  rw [if_pos hpass]
  dsimp only
  split_ifs <;> exact hval

/-- Claim C6, amended-claim witness: at a locked-in state whose own group
for the locked-in name has 9 pending objects, the arrival of that name fills
the backlog to `fMaxObjects` = 10 and triggers the full merge. -/
theorem C6_size_valve_amended_witness :
    (processReceivedHistogram fullBacklogState "EMCTRQA_A" 0 [1]).2.sizeMerge = true :=
  C6_size_valve_amended fullBacklogState "EMCTRQA_A" 0 [1] [1]
    (List.replicate 9 ([1] : Hist)) (by decide) rfl rfl (by decide) (by decide)
    (by decide)

namespace ZMQRequester

theorem processFrames_dataObjs (objs : List String) :
    ∀ s : RecvState, processFrames s (objs.map Frame.dataObj) =
      { s with fData := s.fData ++ objs } := by
  induction objs with
  | nil =>
    intro s
    show s = { s with fData := s.fData ++ [] }
    simp
  | cons o tl ih =>
    intro s
    show processFrames { s with fData := s.fData ++ [o] } (tl.map Frame.dataObj) =
      { s with fData := s.fData ++ o :: tl }
    rw [ih]
    simp

end ZMQRequester

/-- Claim C9, amended: when an Info frame's `run` value does not parse as an
integer, the stored run number becomes 0 (the `atoi` result) — not the
unknown-run sentinel — which makes the receiver skip the file write for that
message; the remaining data frames of the message are still processed and
collected. -/
theorem C9_malformed_run_amended :
    ∀ (s : RecvState) (params : List (String × String)) (objs : List String),
      atoi (mapGet params "run") = 0 →
      (receiveData s (Frame.info params :: objs.map Frame.dataObj)).1.fRunNumber = 0 ∧
      (receiveData s (Frame.info params :: objs.map Frame.dataObj)).2 = [] ∧
      (receiveData s (Frame.info params :: objs.map Frame.dataObj)).1.fData = objs := by
  intro s params objs h0
  have key : processFrames { s with fData := [] }
      (Frame.info params :: objs.map Frame.dataObj) =
      { s with fData := objs, fRunNumber := atoi (mapGet params "run"),
               fHLTMode := mapGet params "HLT_MODE" } := by
    show processFrames
      { s with fData := ([] : List String),
               fRunNumber := atoi (mapGet params "run"),
               fHLTMode := mapGet params "HLT_MODE" } (objs.map Frame.dataObj) = _
    rw [processFrames_dataObjs]
    simp
  unfold receiveData
  dsimp only
  rw [key, if_neg (by simp [h0])]
  exact ⟨h0, rfl, rfl⟩

/-- Claim C9, amended-claim witness: a message whose Info frame carries
`run=abc` followed by one data object ends with run number 0, no file write,
and the data object still collected. -/
theorem C9_malformed_run_amended_witness :
    (receiveData initialRecvState
      (Frame.info [("run", "abc")] :: (["h1"].map Frame.dataObj))).1.fRunNumber = 0 ∧
    (receiveData initialRecvState
      (Frame.info [("run", "abc")] :: (["h1"].map Frame.dataObj))).2 = [] :=
  let h := C9_malformed_run_amended initialRecvState [("run", "abc")] ["h1"]
    (by decide)
  ⟨h.1, h.2.1⟩
